import Mathlib

/-!
Verification development for the landlord repository's local cache subsystem.

The definitions below are a shallow embedding of the TypeScript source:
- the IndexedDB wrapper (src/src/hooks/use-indexed-db.ts): collections of
  places, reviews and cache timestamps with clear-then-insert stores,
  timestamp freshness checks and indexed review lookups;
- the cached-places hook (useCachedPlaces): review normalization, the
  cache-hit / background-refresh / fallback orchestration, the zoom-tiered
  reduction and the bounded merge of viewport fetches;
- the two location parsers (the hook-local one and the MapKit component's).

JavaScript numbers are modelled as rationals (Rat), with an explicit NaN and
undefined value where the code can observe them.  Asynchronous effects are
modelled by explicit state passing: the IndexedDB contents are a DbState
value, remote query outcomes are Except values supplied as an environment,
and the orchestrator is a pure function from (environment, state) to the
chronological list of published (places, isCached) pairs plus final state.
-/

/-- A JavaScript number as observed by the cache code: NaN, undefined (as
produced by out-of-range array destructuring) or a finite value modelled as a
rational. -/
inductive JSNum where
  | nan
  | undef
  | num (q : Rat)
deriving DecidableEq

/-- Number.isNaN: true only for the NaN value (false for undefined). -/
def JSNum.isNaN : JSNum → Bool
  | .nan => true
  | _ => false

/-- JavaScript falsiness of a number-like value: NaN, undefined and 0. -/
def JSNum.isFalsy : JSNum → Bool
  | .nan => true
  | .undef => true
  | .num q => q == 0

/-- A latitude/longitude pair of JavaScript numbers, the result type of the
location parsers. -/
structure JSPoint where
  lat : JSNum
  lng : JSNum
deriving DecidableEq

/-- A latitude/longitude pair of finite numbers (used for the hard-coded
coordinate tables in MapKit.tsx). -/
structure RatPt where
  lat : Rat
  lng : Rat
deriving DecidableEq

/-- A field value of a JavaScript object inspected by the location parsers:
a finite number, a NaN number, a string, or an array of numbers.  A missing
field (undefined) is represented by an absent association-list entry. -/
inductive JField where
  | num (q : Rat)
  | nanNum
  | str (s : String)
  | arr (a : List JSNum)
deriving DecidableEq

/-- The value of a field whose typeof is "number". -/
def JField.asNumber : JField → Option JSNum
  | .num q => some (.num q)
  | .nanNum => some .nan
  | _ => none

/-- The value of a field whose typeof is "string". -/
def JField.asString : JField → Option String
  | .str s => some s
  | _ => none

/-- The universe of values the location parsers receive: null/undefined, a
string, or an object given as an association list of named fields. -/
inductive LocValue where
  | nul
  | str (s : String)
  | obj (fields : List (String × JField))
deriving DecidableEq

/-- Property lookup on a modelled object. -/
def getField (o : List (String × JField)) (k : String) : Option JField :=
  (o.find? (fun kv => kv.1 == k)).map (fun kv => kv.2)

/-- String.prototype.startsWith on character lists. -/
def startsWithCL : List Char → List Char → Bool
  | _, [] => true
  | [], _ :: _ => false
  | c :: cs, p :: ps => c == p && startsWithCL cs ps

/-- String.prototype.split with a single-character separator: consecutive
separators produce empty segments, as in JavaScript. -/
def splitChar (sep : Char) : List Char → List (List Char)
  | [] => [[]]
  | c :: cs =>
    let rest := splitChar sep cs
    if c == sep then [] :: rest
    else
      match rest with
      | r :: rs => (c :: r) :: rs
      | [] => [[c]]

/-- Numeric value of a list of decimal digit characters. -/
def digitsToNat (l : List Char) : Nat :=
  l.foldl (fun a c => a * 10 + (c.toNat - 48)) 0

/-- Unsigned decimal literal of the form digits, digits.digits, .digits or
digits. (at least one digit overall); other shapes are rejected.  This is the
fragment of the JavaScript numeric-string grammar exercised by the location
data (no exponents, no hex). -/
def parseUnsignedDec (l : List Char) : Option Rat :=
  let ip := l.takeWhile (fun c => c.isDigit)
  let rest := l.drop ip.length
  match rest with
  | [] => if ip.isEmpty then none else some (digitsToNat ip : Rat)
  | '.' :: fr =>
    if fr.all (fun c => c.isDigit) && (!ip.isEmpty || !fr.isEmpty) then
      some ((digitsToNat ip : Rat) + (digitsToNat fr : Rat) / (10 : Rat) ^ fr.length)
    else none
  | _ => none

/-- Signed decimal literal. -/
def parseSignedDec (l : List Char) : Option Rat :=
  match l with
  | '-' :: r => (parseUnsignedDec r).map (fun q => -q)
  | '+' :: r => parseUnsignedDec r
  | _ => parseUnsignedDec l

/-- The JavaScript Number(string) coercion on the decimal fragment above:
the empty string converts to 0, a full-string decimal literal to its value,
anything else to NaN. -/
def jsNumberCL (l : List Char) : JSNum :=
  if l.isEmpty then .num 0
  else
    match parseSignedDec l with
    | some q => .num q
    | none => .nan

/-- Number.parseFloat on the same decimal fragment: parses a signed decimal
prefix, NaN when no digits can be read.  (Trailing garbage after the numeric
prefix is not modelled; the claims never exercise it.) -/
def parseFloatCL (l : List Char) : JSNum :=
  match l with
  | '-' :: r => match parseUnsignedDecPrefix r with | some q => .num (-q) | none => .nan
  | '+' :: r => match parseUnsignedDecPrefix r with | some q => .num q | none => .nan
  | _ => match parseUnsignedDecPrefix l with | some q => .num q | none => .nan
where
  /-- Longest unsigned decimal prefix. -/
  parseUnsignedDecPrefix (l : List Char) : Option Rat :=
    let ip := l.takeWhile (fun c => c.isDigit)
    let rest := l.drop ip.length
    match rest with
    | '.' :: fr0 =>
      let fr := fr0.takeWhile (fun c => c.isDigit)
      if ip.isEmpty && fr.isEmpty then none
      else some ((digitsToNat ip : Rat) + (digitsToNat fr : Rat) / (10 : Rat) ^ fr.length)
    | _ => if ip.isEmpty then none else some (digitsToNat ip : Rat)

/-- JavaScript String.prototype.substring with both indices: indices are
swapped when start exceeds end, as substring does. -/
def jsSubstring (l : List Char) (a b : Nat) : List Char :=
  (l.take (max a b)).drop (min a b)

/-! ## Data model (use-indexed-db.ts and useCachedPlaces) -/

/-- A review record as stored and attached to places. -/
structure Review where
  id : String
  place_id : String
  rating : JSNum
  created_at : Option String := none
  updated_at : Option String := none
  comment : Option String := none
  user_id : Option String := none
deriving DecidableEq

/-- A place record: identifier, name, raw polymorphic geometry value, the
serialized metadata blob (google), optional website/phone, and the list of
reviews attached by the fetcher (absent on freshly typed rows). -/
structure Place where
  id : String
  name : String
  location : LocValue
  google : Option String := none
  website : Option String := none
  phone : Option String := none
  reviews : Option (List Review) := none
deriving DecidableEq

/-- A cache-freshness record: key, creation instant and expiry instant, in
milliseconds. -/
structure CacheTimestamp where
  key : String
  timestamp : Rat
  expiresAt : Rat
deriving DecidableEq

/-- The contents of the three IndexedDB object stores.  Collections are kept
as lists in insertion order; the object-store key constraints (places keyed
by id, reviews keyed by id with a place_id index, timestamps keyed by key)
are enforced by the operations below. -/
structure DbState where
  places : List Place := []
  reviews : List Review := []
  timestamps : List CacheTimestamp := []
deriving DecidableEq

/-- IDBObjectStore.put on the timestamps store: overwrite the record with the
same key, or insert. -/
def putTimestamp (ts : List CacheTimestamp) (rec : CacheTimestamp) : List CacheTimestamp :=
  ts.filter (fun r => !(r.key == rec.key)) ++ [rec]

/-- store.get(key) on the timestamps store. -/
def getTimestampRec (st : DbState) (key : String) : Option CacheTimestamp :=
  st.timestamps.find? (fun r => r.key == key)

/-- setCacheTimestamp (use-indexed-db.ts lines 92-113): writes a
CacheTimestamp with expiresAt = timestamp + expiryMinutes * 60 * 1000 and
returns the write instant.  The Date.now() value is passed explicitly. -/
def setCacheTimestamp (key : String) (expiryMinutes now : Rat) (st : DbState) :
    Rat × DbState :=
  let timestamp := now
  let expiresAt := timestamp + expiryMinutes * 60 * 1000
  (timestamp, { st with timestamps := putTimestamp st.timestamps ⟨key, timestamp, expiresAt⟩ })

/-- isCacheValid (use-indexed-db.ts lines 116-140): false when no record
exists for the key, otherwise now < expiresAt and now - timestamp < maxAge
with maxAge = maxAgeMinutes * 60 * 1000. -/
def isCacheValid (key : String) (maxAgeMinutes now : Rat) (st : DbState) : Bool :=
  match getTimestampRec st key with
  | none => false
  | some rec =>
    let maxAge := maxAgeMinutes * 60 * 1000
    decide (now < rec.expiresAt ∧ now - rec.timestamp < maxAge)

/-- getCacheTimestamp (use-indexed-db.ts lines 143-161). -/
def getCacheTimestamp (key : String) (st : DbState) : Option Rat :=
  (getTimestampRec st key).map (fun rec => rec.timestamp)

/-- The add loop of storePlaces: IDBObjectStore.add rejects on a duplicate
key, which aborts the operation with the collection left as populated so
far. -/
def addPlacesLoop (acc : List Place) : List Place → Bool × List Place
  | [] => (true, acc)
  | p :: rest =>
    if acc.any (fun q => q.id == p.id) then (false, acc)
    else addPlacesLoop (acc ++ [p]) rest

/-- storePlaces (use-indexed-db.ts lines 164-196): clears the places store,
adds every supplied record one at a time, then sets the "places" timestamp.
Returns false (with the collection as far as it got) when an add fails. -/
def storePlaces (places : List Place) (cacheDurationMinutes now : Rat) (st : DbState) :
    Bool × DbState :=
  match addPlacesLoop [] places with
  | (true, newPlaces) =>
    let st2 := { st with places := newPlaces }
    let st3 := (setCacheTimestamp "places" cacheDurationMinutes now st2).2
    (true, st3)
  | (false, newPlaces) => (false, { st with places := newPlaces })

/-- The add loop of storeReviews, with the same duplicate-key semantics. -/
def addReviewsLoop (acc : List Review) : List Review → Bool × List Review
  | [] => (true, acc)
  | r :: rest =>
    if acc.any (fun q => q.id == r.id) then (false, acc)
    else addReviewsLoop (acc ++ [r]) rest

/-- storeReviews (use-indexed-db.ts lines 199-231): clear-then-insert on the
reviews store, then sets the "reviews" timestamp. -/
def storeReviews (reviews : List Review) (cacheDurationMinutes now : Rat) (st : DbState) :
    Bool × DbState :=
  match addReviewsLoop [] reviews with
  | (true, newReviews) =>
    let st2 := { st with reviews := newReviews }
    let st3 := (setCacheTimestamp "reviews" cacheDurationMinutes now st2).2
    (true, st3)
  | (false, newReviews) => (false, { st with reviews := newReviews })

/-- getPlaces (use-indexed-db.ts lines 234-252): getAll on the places
store. -/
def getPlaces (st : DbState) : List Place :=
  st.places

/-- getReviews (use-indexed-db.ts lines 255-293): getAll when placeIds is
omitted or empty, otherwise one place_id-indexed lookup per id, results
concatenated in order. -/
def getReviews (st : DbState) (placeIds : Option (List String)) : List Review :=
  match placeIds with
  | none => st.reviews
  | some ids =>
    if ids.length == 0 then st.reviews
    else ids.foldl (fun acc pid => acc ++ st.reviews.filter (fun r => r.place_id == pid)) []

/-- clearCache (use-indexed-db.ts lines 296-326): empties all three
stores. -/
def clearCache (st : DbState) : Bool × DbState :=
  (true, { st with places := [], reviews := [], timestamps := [] })

/-! ## Location parsers -/

/-- Strict segment-wise numeric parse used by the JSON model below: every
comma-separated segment must be a full signed decimal literal. -/
def mapStrictNums : List (List Char) → Option (List JSNum)
  | [] => some []
  | seg :: rest =>
    match parseSignedDec seg, mapStrictNums rest with
    | some q, some l => some (.num q :: l)
    | _, _ => none

/-- Models JSON.parse as the code observes it: a JSON text of exactly the
form \x7b"type":"Point","coordinates":[numbers]\x7d (no whitespace) yields
its coordinate array; any other string yields nothing.  The code only
distinguishes whether the parsed value is such a Point object, so strings
outside this shape (including invalid JSON) behave identically. -/
def jsonPointCoords (l : List Char) : Option (List JSNum) :=
  let header := "\x7b\"type\":\"Point\",\"coordinates\":[".data
  if startsWithCL l header then
    let rest := l.drop header.length
    let inside := rest.takeWhile (fun c => !(c == ']'))
    let tail := rest.drop inside.length
    if tail == [']', '\x7d'] then mapStrictNums (splitChar ',' inside)
    else none
  else none

/-- The coordinate extraction of the POINT(lng lat) branch shared by both
parsers: substring(6, length-1), split on a space, Number on each part, then
array destructuring of the first two entries (undefined past the end). -/
def wktCoords (l : List Char) : JSNum × JSNum :=
  let coordsStr := jsSubstring l 6 (l.length - 1)
  let parts := (splitChar ' ' coordsStr).map jsNumberCL
  (parts.getD 0 .undef, parts.getD 1 .undef)

/-- parseLocation of the cached-places hook (part_001 lines 7-78): PostGIS
extended-WKB hex strings are explicitly not decoded (the branch returns
null), then POINT strings, GeoJSON objects, stringified GeoJSON; anything
else yields null.  There is no lat/lng field-pair case in this copy. -/
def hooksParseLocation : LocValue → Option JSPoint
  | .nul => none
  | .str s =>
    if s.data.isEmpty then none
    else if startsWithCL s.data "0101000020E6100000".data then none
    else if startsWithCL s.data "POINT(".data then
      let lng := (wktCoords s.data).1
      let lat := (wktCoords s.data).2
      if lat.isNaN || lng.isNaN then none else some ⟨lat, lng⟩
    else
      match jsonPointCoords s.data with
      | some coords =>
        if 2 ≤ coords.length then
          let lng := coords.getD 0 .undef
          let lat := coords.getD 1 .undef
          if lat.isNaN || lng.isNaN then none else some ⟨lat, lng⟩
        else none
      | none => none
  | .obj o =>
    match getField o "type", getField o "coordinates" with
    | some (.str ty), some (.arr coords) =>
      if ty = "Point" ∧ 2 ≤ coords.length then
        let lng := coords.getD 0 .undef
        let lat := coords.getD 1 .undef
        if lat.isNaN || lng.isNaN then none else some ⟨lat, lng⟩
      else none
    | _, _ => none

/-- Comparison of a JavaScript number against a finite bound: false for NaN
and undefined, as in JavaScript. -/
def jsNumGE (a : JSNum) (b : Rat) : Bool :=
  match a with
  | .num q => decide (b ≤ q)
  | _ => false

/-- See jsNumGE. -/
def jsNumLE (a : JSNum) (b : Rat) : Bool :=
  match a with
  | .num q => decide (q ≤ b)
  | _ => false

/-- isValidSFCoordinate (MapKit.tsx lines 523-536). -/
def isValidSFCoordinate (lat lng : JSNum) : Bool :=
  jsNumGE lat 37.70 && jsNumLE lat 37.85 && jsNumGE lng (-122.52) && jsNumLE lng (-122.35)

/-- The hard-coded extended-WKB-to-coordinate table of MapKit.tsx
parseLocation case 2, verbatim. -/
def knownLocations : List (String × RatPt) :=
  [("0101000020E6100000EDABBC2E8D975EC0632C2EE983E94240", ⟨37.8243, -122.368⟩),
   ("0101000020E610000003CE52B25C975EC0CBF4F8F775E94240", ⟨37.825, -122.3689⟩),
   ("0101000020E61000000B598231C7975EC03604C765DCE84240", ⟨37.8192, -122.3715⟩),
   ("0101000020E6100000E4141DC9E5975EC07D96E7C1DD034340", ⟨37.7749, -122.4194⟩),
   ("0101000020E6100000CBA145B6F3955EC08126C286A7034340", ⟨37.7749, -122.4314⟩),
   ("0101000020E610000083C0CAA145965EC0EFC9C342AD014340", ⟨37.7694, -122.4862⟩),
   ("0101000020E61000009A999999998A5EC0F6285C8FC2054340", ⟨37.8099, -122.23⟩),
   ("0101000020E610000000000000008A5EC0000000000004434", ⟨37.789, -122.4094⟩),
   ("0101000020E6100000CDCCCCCCCC8A5EC000000000000343", ⟨37.775, -122.4194⟩),
   ("0101000020E6100000CDCCCCCCCC9F5EC000000000000343", ⟨37.802, -122.4187⟩),
   ("0101000020E6100000CDCCCCCCCC7A5EC000000000000343", ⟨37.765, -122.4187⟩)]

/-- The neighborhood-center table of MapKit.tsx parseLocation case 2,
verbatim. -/
def sfNeighborhoods : List RatPt :=
  [⟨37.7749, -122.4194⟩, ⟨37.7585, -122.4100⟩, ⟨37.8025, -122.4382⟩,
   ⟨37.7835, -122.4329⟩, ⟨37.7840, -122.4065⟩, ⟨37.7694, -122.4862⟩,
   ⟨37.7810, -122.4870⟩, ⟨37.7833, -122.4167⟩, ⟨37.8061, -122.4089⟩,
   ⟨37.7599, -122.4148⟩, ⟨37.7648, -122.3890⟩]

/-- Wrap of an integer into signed 32-bit range, the effect of the
JavaScript | 0 and << operators. -/
def toInt32 (n : Int) : Int :=
  (n + 2 ^ 31).emod (2 ^ 32) - 2 ^ 31

/-- One step of the hash ((h << 5) - h + c.charCodeAt(0)) | 0 used by the
MapKit parser's binary fallback. -/
def jsHashStep (h : Int) (c : Char) : Int :=
  toInt32 (toInt32 (h * 32) - h + c.toNat)

/-- The deterministic neighborhood fallback of MapKit.tsx parseLocation case
2 for unrecognized extended-WKB strings: hash of the hex past position 18,
neighborhood by hash mod table length, tiny variations from the hash's low
bytes (with the sign-propagating shift for the second byte). -/
def mapkitHexFallback (s : String) : JSPoint :=
  let hex := s.data.drop 18
  let hashCode := hex.foldl jsHashStep 0
  let base := sfNeighborhoods.getD (hashCode.natAbs % sfNeighborhoods.length) ⟨37.7749, -122.4194⟩
  let latVariation : Rat := (((hashCode.emod 256).toNat % 50 : Nat) : Rat) / 10000
  let lngVariation : Rat := ((((hashCode.fdiv 256).emod 256).toNat % 50 : Nat) : Rat) / 10000
  ⟨.num (base.lat + latVariation), .num (base.lng + lngVariation)⟩

/-- The ordered lat/lng field-name pairs of MapKit.tsx parseLocation case
5. -/
def patternPairs : List (String × String) :=
  [("lat", "lng"), ("lat", "lon"), ("latitude", "longitude"), ("y", "x")]

/-- MapKit.tsx parseLocation case 5: try each field-name pair in order;
accept a pair of numbers as-is, or a pair of strings both parsing to
non-NaN floats. -/
def fieldPatternLookup (o : List (String × JField)) : Option JSPoint :=
  go patternPairs
where
  go : List (String × String) → Option JSPoint
  | [] => none
  | (la, ln) :: rest =>
    match getField o la, getField o ln with
    | some fa, some fb =>
      match fa.asNumber, fb.asNumber with
      | some a, some b => some ⟨a, b⟩
      | _, _ =>
        match fa.asString, fb.asString with
        | some sa, some sb =>
          let numLat := parseFloatCL sa.data
          let numLng := parseFloatCL sb.data
          if !numLat.isNaN && !numLng.isNaN then some ⟨numLat, numLng⟩ else go rest
        | _, _ => go rest
    | _, _ => go rest

/-- parseLocation of MapKit.tsx (lines 298-520): POINT strings with an SF
sanity check and coordinate-swap fallback; extended-WKB hex strings resolved
through the hard-coded table or the hash-based neighborhood fallback (never
decoded); GeoJSON objects; stringified GeoJSON; lat/lng field pairs. -/
def mapkitParseLocation : LocValue → Option JSPoint
  | .nul => none
  | .str s =>
    if s.data.isEmpty then none
    else if startsWithCL s.data "POINT(".data then
      let lng := (wktCoords s.data).1
      let lat := (wktCoords s.data).2
      if lat.isNaN || lng.isNaN then none
      else if isValidSFCoordinate lat lng then some ⟨lat, lng⟩
      else if isValidSFCoordinate lng lat then some ⟨lng, lat⟩
      else none
    else if startsWithCL s.data "0101000020E6".data then
      match knownLocations.find? (fun kv => kv.1 == s) with
      | some kv => some ⟨.num kv.2.lat, .num kv.2.lng⟩
      | none => some (mapkitHexFallback s)
    else
      match jsonPointCoords s.data with
      | some coords =>
        if 2 ≤ coords.length then
          let lng := coords.getD 0 .undef
          let lat := coords.getD 1 .undef
          if lat.isNaN || lng.isNaN then none else some ⟨lat, lng⟩
        else none
      | none => none
  | .obj o =>
    match getField o "type", getField o "coordinates" with
    | some (.str ty), some (.arr coords) =>
      if ty = "Point" ∧ 2 ≤ coords.length then
        let lng := coords.getD 0 .undef
        let lat := coords.getD 1 .undef
        if lat.isNaN || lng.isNaN then none else some ⟨lat, lng⟩
      else fieldPatternLookup o
    | _, _ => fieldPatternLookup o

/-! ## Spec-modelled extended-WKB decoding (the spec's claim, absent from
the code) -/

/-- Value of a hex digit character. -/
def hexDigitVal (c : Char) : Option Nat :=
  if '0' ≤ c ∧ c ≤ '9' then some (c.toNat - 48)
  else if 'A' ≤ c ∧ c ≤ 'F' then some (c.toNat - 55)
  else if 'a' ≤ c ∧ c ≤ 'f' then some (c.toNat - 87)
  else none

/-- Hex character pairs to byte values. -/
def hexPairsToBytes : List Char → Option (List Nat)
  | [] => some []
  | c1 :: c2 :: rest =>
    match hexDigitVal c1, hexDigitVal c2, hexPairsToBytes rest with
    | some h, some l, some bs => some ((h * 16 + l) :: bs)
    | _, _, _ => none
  | _ => none

/-- Little-endian byte list to an unsigned integer. -/
def bytesToNatLE (bs : List Nat) : Nat :=
  bs.foldr (fun b acc => acc * 256 + b) 0

/-- IEEE-754 binary64 interpretation of a 64-bit pattern as an exact
rational; none for the non-finite encodings (exponent field all ones). -/
def float64OfBits (bits : Nat) : Option Rat :=
  let sign := bits / 2 ^ 63
  let expo := (bits / 2 ^ 52) % 2 ^ 11
  let frac := bits % 2 ^ 52
  if expo = 2047 then none
  else
    let mag : Rat :=
      if expo = 0 then ((frac * 2 : Nat) : Rat) / ((2 ^ 1075 : Nat) : Rat)
      else (((2 ^ 52 + frac) * 2 ^ expo : Nat) : Rat) / ((2 ^ 1075 : Nat) : Rat)
    some (if sign = 1 then -mag else mag)

/-- Modelled from the spec: the decoding the specification ascribes to the
parser for strings bearing the fixed PostGIS extended-WKB hex header — the
remainder is read as two little-endian 64-bit IEEE floating-point values,
longitude first then latitude, starting at byte offset 9 (hex offset 18);
no location only when a decode is non-finite.  No code in the repository
performs this decoding. -/
def specWKBDecode (s : String) : Option RatPt :=
  let rest := s.data.drop 18
  match hexPairsToBytes (rest.take 32) with
  | some bytes =>
    if bytes.length = 16 then
      match float64OfBits (bytesToNatLE (bytes.take 8)),
            float64OfBits (bytesToNatLE (bytes.drop 8)) with
      | some lng, some lat => some ⟨lat, lng⟩
      | _, _ => none
    else none
  | none => none

/-! ## Review normalization and the cached-places orchestrator (part_001) -/

/-- JavaScript truthiness of an optional string field: undefined and the
empty string are falsy. -/
def strTruthy : Option String → Option String
  | some s => if s = "" then none else some s
  | none => none

/-- The JavaScript expression a || b || c over string-valued operands: the
first truthy operand, otherwise the last operand unchanged. -/
def jsOr3 (a b c : Option String) : Option String :=
  match strTruthy a with
  | some s => some s
  | none =>
    match strTruthy b with
    | some s => some s
    | none => c

/-- A raw review row as the hook's RawReview interface describes it: every
field optional, with several candidate join-field and author-field names. -/
structure RawReview where
  id : Option String := none
  place_id : Option String := none
  placeId : Option String := none
  place : Option String := none
  placeUuid : Option String := none
  rating : Option JSNum := none
  created_at : Option String := none
  updated_at : Option String := none
  comment : Option String := none
  text : Option String := none
  content : Option String := none
  user_id : Option String := none
  userId : Option String := none
  author : Option String := none
deriving DecidableEq

/-- Dynamic string-field access rawReview[placeIdField] for the candidate
join-field names. -/
def RawReview.getStringField (r : RawReview) (field : String) : Option String :=
  if field = "place_id" then r.place_id
  else if field = "placeId" then r.placeId
  else if field = "place" then r.place
  else if field = "placeUuid" then r.placeUuid
  else none

/-- normalizeReview (part_001 lines 164-186).  The Math.random id suffix and
the current-instant ISO string are environment inputs passed explicitly.
The rating is Number(rawReview.rating || 5): the fallback 5 replaces a
missing, NaN or zero rating (all falsy); a truthy numeric rating is already
a number, so the Number coercion leaves it unchanged. -/
def normalizeReview (rawReview : RawReview) (placeIdField : String)
    (freshSuffix nowISO : String) : Review :=
  { id := (strTruthy rawReview.id).getD ("auto-" ++ freshSuffix)
    place_id := (jsOr3 (rawReview.getStringField placeIdField) rawReview.place_id (some "")).getD ""
    rating :=
      match rawReview.rating with
      | some n => if n.isFalsy then .num 5 else n
      | none => .num 5
    created_at := some ((strTruthy rawReview.created_at).getD nowISO)
    updated_at := some ((strTruthy rawReview.updated_at).getD nowISO)
    comment := jsOr3 rawReview.comment rawReview.text rawReview.content
    user_id := jsOr3 rawReview.user_id rawReview.userId rawReview.author }

/-- A place row returned by the remote store for the fixed projection
id, name, location, google, website, phone. -/
structure RemotePlaceRow where
  id : String
  name : String
  location : LocValue
  google : Option String := none
  website : Option String := none
  phone : Option String := none
deriving DecidableEq

/-- A review row returned by the remote store (the fields the code reads). -/
structure RemoteReviewRow where
  id : String
  place_id : Option String
  rating : JSNum
deriving DecidableEq

/-- The outcomes of the remote queries issued during one load: the Place
table query and the Reviews table query, each either rows or an error
message. -/
structure RemoteEnv where
  placeRows : Except String (List RemotePlaceRow)
  reviewRows : Except String (List RemoteReviewRow)

/-- Conversion of a fetched row to the hook's Place type (no reviews
attached yet). -/
def rowToPlace (r : RemotePlaceRow) : Place :=
  { id := r.id, name := r.name, location := r.location, google := r.google,
    website := r.website, phone := r.phone }

/-- The inline normalization fetchReviewsForPlaces applies to fetched review
rows: id, place_id defaulted to "" when falsy, rating as-is. -/
def reviewRowNormalize (r : RemoteReviewRow) : Review :=
  { id := r.id, place_id := (strTruthy r.place_id).getD "", rating := r.rating }

/-- Group-by-place_id followed by per-place lookup with default []:
equivalently, each place gets the in-order sublist of reviews whose place_id
matches its id. -/
def attachReviews (rs : List Review) (places : List Place) : List Place :=
  places.map (fun p => { p with reviews := some (rs.filter (fun rv => rv.place_id == p.id)) })

/-- fetchReviewsForPlaces (part_001 lines 189-282): on a reviews-query
error, return the places unchanged; on a non-empty result, normalize, store
in IndexedDB and attach grouped reviews; on an empty result, fall back to
previously cached reviews when any exist. -/
def fetchReviewsForPlaces (env : RemoteEnv) (cacheDuration now : Rat) (st : DbState)
    (places : List Place) : List Place × DbState :=
  match env.reviewRows with
  | .error _ => (places, st)
  | .ok reviewRows =>
    if reviewRows.length > 0 then
      let normalizedReviews := reviewRows.map reviewRowNormalize
      let st2 := (storeReviews normalizedReviews cacheDuration now st).2
      (attachReviews normalizedReviews places, st2)
    else
      let cachedReviews := getReviews st none
      if cachedReviews.length > 0 then (attachReviews cachedReviews places, st)
      else (places, st)

/-- fetchFreshData (part_001 lines 285-350): query the Place table, throw on
a query error or an empty result, otherwise type the rows, fetch and attach
reviews, store everything, and yield the places with reviews.  The
in-flight-ref guard is a per-component concurrency device and is not part of
this single-load model; errors occur before any store mutation, so the state
is unchanged on the error path. -/
def fetchFreshData (env : RemoteEnv) (cacheDuration now : Rat) (st : DbState) :
    Except String (List Place × DbState) :=
  match env.placeRows with
  | .error msg => .error ("Failed to fetch places: " ++ msg)
  | .ok rows =>
    if rows.length > 0 then
      let typedPlaces := rows.map rowToPlace
      let pr := fetchReviewsForPlaces env cacheDuration now st typedPlaces
      let st3 := (storePlaces pr.1 cacheDuration now pr.2).2
      .ok (pr.1, st3)
    else .error "No places found in Place table"

/-- The published React state of the hook: places, loading, error and the
isCached flag. -/
structure HookState where
  places : List Place := []
  loading : Bool := true
  error : Option String := none
  isCached : Bool := false
deriving DecidableEq

/-- The observable outcome of one load: the chronological list of published
(places, isCached) pairs, the final hook state, and the final IndexedDB
contents. -/
structure LoadOutcome where
  published : List (List Place × Bool)
  final : HookState
  db : DbState
deriving DecidableEq

/-- The fetch-fresh path of fetchPlacesWithCache (part_001 lines 387-417):
a synchronous fetchFreshData; on success publish the fresh set with
isCached false; on failure record the error (setError in the catch) and fall
back to whatever the cache holds — publishing it with isCached true when
non-empty, else publishing an empty list (isCached untouched). -/
def fetchFreshPath (env : RemoteEnv) (isDbReady : Bool) (cacheDuration now : Rat)
    (st : DbState) (prevIsCached : Bool) : LoadOutcome :=
  match fetchFreshData env cacheDuration now st with
  | .ok (fresh, st2) =>
    { published := [(fresh, false)]
      final := { places := fresh, loading := false, error := none, isCached := false }
      db := st2 }
  | .error msg =>
    if isDbReady then
      let cachedPlaces := getPlaces st
      if cachedPlaces.length > 0 then
        { published := [(cachedPlaces, true)]
          final := { places := cachedPlaces, loading := false, error := some msg, isCached := true }
          db := st }
      else
        { published := [([], prevIsCached)]
          final := { places := [], loading := false, error := some msg, isCached := prevIsCached }
          db := st }
    else
      { published := [([], prevIsCached)]
        final := { places := [], loading := false, error := some msg, isCached := prevIsCached }
        db := st }

/-- fetchPlacesWithCache (part_001 lines 353-418): when the store is ready,
the "places" entry is valid and the cached list non-empty, publish the
cached list with isCached true immediately (before any remote outcome) and
start the background refresh, whose success publishes the fresh list with
isCached false and whose failure is only logged (the cached list and a null
error remain); in every other situation run the fetch-fresh path. -/
def fetchPlacesWithCache (env : RemoteEnv) (isDbReady : Bool) (cacheDuration now : Rat)
    (st : DbState) (prevIsCached : Bool) : LoadOutcome :=
  if isDbReady && isCacheValid "places" cacheDuration now st then
    let cachedPlaces := getPlaces st
    if cachedPlaces.length > 0 then
      match fetchFreshData env cacheDuration now st with
      | .ok (fresh, st2) =>
        { published := [(cachedPlaces, true), (fresh, false)]
          final := { places := fresh, loading := false, error := none, isCached := false }
          db := st2 }
      | .error _ =>
        { published := [(cachedPlaces, true)]
          final := { places := cachedPlaces, loading := false, error := none, isCached := true }
          db := st }
    else fetchFreshPath env isDbReady cacheDuration now st prevIsCached
  else fetchFreshPath env isDbReady cacheDuration now st prevIsCached

/-! ## Bounds fetch: zoom-tiered reduction and the capped merge -/

/-- The reviewed-place test place.reviews && place.reviews.length > 0. -/
def hasReviews (p : Place) : Bool :=
  match p.reviews with
  | some l => decide (l.length > 0)
  | none => false

/-- The zoom-tiered reduction of fetchPlacesWithinBounds (part_001 lines
505-536): below zoom 10 keep only reviewed places; from 10 up to (not
including) 14 with more than 30 candidates keep the reviewed places plus a
prefix of the unreviewed ones up to min(30, count) total; otherwise keep
everything. -/
def filterByZoom (zoomLevel : Option Rat) (typedPlaces : List Place) : List Place :=
  match zoomLevel with
  | none => typedPlaces
  | some z =>
    if z < 10 then typedPlaces.filter hasReviews
    else if z < 14 ∧ typedPlaces.length > 30 then
      let withReviews := typedPlaces.filter hasReviews
      let withoutReviews := typedPlaces.filter (fun p => !hasReviews p)
      let totalToShow : Int := min 30 (typedPlaces.length : Int)
      let withoutReviewsToShow := max 0 (totalToShow - withReviews.length)
      withReviews ++ withoutReviews.take withoutReviewsToShow.toNat
    else typedPlaces

/-- The setPlaces merge of fetchPlacesWithinBounds (part_001 lines 540-573):
append only places whose ids are not already present; when a zoom level was
supplied and the combined list exceeds 100 places, keep every reviewed place
plus a prefix of the unreviewed ones filling the remaining spots up to
100. -/
def mergePlaces (zoomLevel : Option Rat) (prevPlaces placesWithReviews : List Place) :
    List Place :=
  let existingIds := prevPlaces.map (fun p => p.id)
  let newPlaces := placesWithReviews.filter (fun p => !existingIds.contains p.id)
  if newPlaces.length > 0 then
    let combinedPlaces := prevPlaces ++ newPlaces
    if zoomLevel.isSome ∧ combinedPlaces.length > 100 then
      let withReviews := combinedPlaces.filter hasReviews
      let withoutReviews := combinedPlaces.filter (fun p => !hasReviews p)
      let remainingSpots := (max 0 (100 - (withReviews.length : Int))).toNat
      withReviews ++ withoutReviews.take remainingSpots
    else combinedPlaces
  else prevPlaces

/-! ## Concrete fixtures for the claims' literal scenarios -/

/-- Short distinct id strings for generated fixtures. -/
def mkId (i : Nat) : String :=
  String.mk [Char.ofNat (65 + i / 10), Char.ofNat (65 + i % 10)]

/-- Fifty candidate places of which exactly the first five have one review
each (the zoom-reduction scenario of the spec's testable properties). -/
def c5Candidates : List Place :=
  (List.range 50).map (fun i =>
    { id := mkId i, name := "P", location := .nul,
      reviews := if i < 5 then some [{ id := mkId i, place_id := mkId i, rating := .nan }]
                 else some [] })

/-- One hundred unreviewed places already in the in-memory list (the merge
cap scenario). -/
def c8Prev : List Place :=
  (List.range 100).map (fun i => { id := mkId i, name := "P", location := .nul })

/-- One genuinely new unreviewed place to merge. -/
def c8New : List Place :=
  [{ id := mkId 100, name := "P", location := .nul }]

/-- Three cached places for the orchestrator scenarios. -/
def c4Places : List Place :=
  [{ id := "pa", name := "A", location := .nul },
   { id := "pb", name := "B", location := .nul },
   { id := "pc", name := "C", location := .nul }]

/-- A store holding the three cached places and no timestamp record, so the
"places" entry is invalid. -/
def c4St : DbState :=
  { places := c4Places, reviews := [], timestamps := [] }

/-- A remote environment whose Place query rejects. -/
def c4Env : RemoteEnv :=
  { placeRows := .error "boom", reviewRows := .error "no reviews" }

/-- A store holding the three cached places and a "places" timestamp written
5 minutes before the sample instant with a 60-minute duration, so the entry
is valid at that instant. -/
def c3St : DbState :=
  { places := c4Places, reviews := [],
    timestamps := [⟨"places", 599700000, 603300000⟩] }

/-- A remote environment for the cache-hit scenario: the Place query returns
two fresh rows; the Reviews query rejects (review attachment degrades
silently). -/
def c3Env : RemoteEnv :=
  { placeRows := .ok [{ id := "pd", name := "D", location := .nul },
                      { id := "pe", name := "E", location := .nul }]
    reviewRows := .error "offline" }

-- ===== Theorems =====

/-- Helper: looking up a key right after putting a record with that key finds
exactly that record. -/
theorem find?_putTimestamp (ts : List CacheTimestamp) (rec : CacheTimestamp) :
    (putTimestamp ts rec).find? (fun r => r.key == rec.key) = some rec := by
  induction ts with
  | nil => simp [putTimestamp, List.find?]
  | cons a ts ih =>
    cases h : (a.key == rec.key) with
    | true =>
      rw [show putTimestamp (a :: ts) rec = putTimestamp ts rec by
        simp [putTimestamp, List.filter_cons, h]]
      exact ih
    | false =>
      simp only [putTimestamp, List.filter_cons, h, Bool.not_false, if_true, List.cons_append]
      rw [List.find?_cons_of_neg _ (by simp [h])]
      exact ih

/-- C1: isCacheValid is false when no timestamp record exists for the key;
when one exists it is true exactly when now is before expiresAt and the age
now - timestamp is below maxAgeMinutes (in minutes); and immediately after
setCacheTimestamp with a positive duration d, isCacheValid at d is true while
isCacheValid at 0 is false. -/
theorem isCacheValid_freshness (key : String) (m now : Rat) (st : DbState) :
    (getTimestampRec st key = none → isCacheValid key m now st = false)
    ∧ (∀ rec, getTimestampRec st key = some rec →
        (isCacheValid key m now st = true ↔
          now < rec.expiresAt ∧ now - rec.timestamp < m * 60 * 1000))
    ∧ (∀ d : Rat, 0 < d →
        isCacheValid key d now (setCacheTimestamp key d now st).2 = true
        ∧ isCacheValid key 0 now (setCacheTimestamp key d now st).2 = false) := by
  refine ⟨fun h => by simp [isCacheValid, h], fun rec h => by simp [isCacheValid, h], ?_⟩
  intro d hd
  have hmul : (0 : Rat) < d * 60 * 1000 := by positivity
  have hfind : getTimestampRec (setCacheTimestamp key d now st).2 key
      = some ⟨key, now, now + d * 60 * 1000⟩ := by
    simpa [getTimestampRec, setCacheTimestamp] using
      find?_putTimestamp st.timestamps ⟨key, now, now + d * 60 * 1000⟩
  constructor
  · simp only [isCacheValid, hfind]
    simp only [decide_eq_true_eq]
    exact ⟨by linarith, by simpa using hmul⟩
  · simp only [isCacheValid, hfind]
    rw [decide_eq_false_iff_not]
    rintro ⟨-, h2⟩
    simp at h2

/-- Witness for C1 at key "places", age 3 minutes, a concrete store and
instant. -/
theorem isCacheValid_freshness_witness :
    isCacheValid "places" 3 500000 (setCacheTimestamp "places" 3 500000 ⟨[], [], []⟩).2 = true
    ∧ isCacheValid "places" 0 500000 (setCacheTimestamp "places" 3 500000 ⟨[], [], []⟩).2 = false := by
  exact (isCacheValid_freshness "places" 3 500000 ⟨[], [], []⟩).2.2 3 (by norm_num)

/-- Helper: adding places with pairwise-distinct ids, all distinct from the
ids already in the store, succeeds and appends them in order. -/
theorem addPlacesLoop_ok (P : List Place) :
    ∀ acc : List Place, (∀ a ∈ acc, ∀ p ∈ P, a.id ≠ p.id) →
      P.Pairwise (fun a b => a.id ≠ b.id) →
      addPlacesLoop acc P = (true, acc ++ P) := by
  induction P with
  | nil => intro acc _ _; simp [addPlacesLoop]
  | cons p rest ih =>
    intro acc hdisj hpw
    have hany : acc.any (fun q => q.id == p.id) = false := by
      simp only [List.any_eq_false]
      intro a ha
      simpa using hdisj a ha p (by simp)
    rw [addPlacesLoop, hany]
    simp only [Bool.false_eq_true, if_false]
    rw [ih (acc ++ [p]) ?_ (List.Pairwise.of_cons hpw)]
    · simp
    · intro a ha q hq
      rcases List.mem_append.mp ha with h | h
      · exact hdisj a h q (by simp [hq])
      · have : a = p := by simpa using h
        subst this
        exact (List.pairwise_cons.mp hpw).1 q hq

/-- C2: storing a list of places with distinct ids then reading the places
collection back yields exactly that list: the operation succeeds, the stored
collection equals P (hence is set-equal to P, order-independently), and no
previously persisted place survives unless it is itself an element of P. -/
theorem storePlaces_roundtrip (P : List Place) (d now : Rat) (st : DbState)
    (h : P.Pairwise (fun a b => a.id ≠ b.id)) :
    (storePlaces P d now st).1 = true
    ∧ getPlaces (storePlaces P d now st).2 = P
    ∧ (∀ p, p ∈ getPlaces (storePlaces P d now st).2 ↔ p ∈ P) := by
  have hloop : addPlacesLoop [] P = (true, P) := by
    simpa using addPlacesLoop_ok P [] (by simp) h
  refine ⟨?_, ?_, ?_⟩ <;>
    simp [storePlaces, hloop, getPlaces, setCacheTimestamp]

/-- Witness for C2 with two concrete places over a non-empty prior store. -/
theorem storePlaces_roundtrip_witness :
    getPlaces (storePlaces
        [{ id := "a", name := "A", location := .nul },
         { id := "b", name := "B", location := .nul }] 60 1000
        ⟨[{ id := "old", name := "Old", location := .nul }], [], []⟩).2
      = [{ id := "a", name := "A", location := .nul },
         { id := "b", name := "B", location := .nul }] :=
  (storePlaces_roundtrip
      [{ id := "a", name := "A", location := .nul },
       { id := "b", name := "B", location := .nul }] 60 1000
      ⟨[{ id := "old", name := "Old", location := .nul }], [], []⟩
      (by simp)).2.1

/-- C10: calling getReviews with an explicitly empty id list performs the
full scan: it returns every stored review, identically to omitting the
argument, rather than the empty concatenation of zero indexed lookups. -/
theorem getReviews_empty_ids_full_scan (st : DbState) :
    getReviews st (some []) = st.reviews
    ∧ getReviews st (some []) = getReviews st none := by
  simp [getReviews]

/-- Helper: the sample coordinates pass the MapKit SF sanity check. -/
theorem sfCheck_sample : isValidSFCoordinate (.num 37.7749) (.num (-122.4194)) = true := by
  simp only [isValidSFCoordinate, jsNumGE, jsNumLE, Bool.and_eq_true, decide_eq_true_eq]
  norm_num

/-- Helper: coordinate extraction from the sample WKT literal. -/
theorem wktCoords_sample :
    wktCoords "POINT(-122.4194 37.7749)".data = (.num (-122.4194), .num 37.7749) := by
  simp +decide [wktCoords, jsSubstring, splitChar, jsNumberCL,
    parseSignedDec, parseUnsignedDec, digitsToNat]
  norm_num

/-- C6 counterexample: the claim's literal table fails on the code.  The
MapKit parser maps the short WKB-hex string "0101000020E61" (shorter than
the 18-character header) to a fallback San Francisco location instead of
null, and the hook-local parser, which has no lat/lon field-pair case,
returns null for the field-pair object instead of the point. -/
theorem parseLocation_table_counterexample :
    mapkitParseLocation (.str "0101000020E61") = some ⟨.num 37.7749, .num (-122.4194)⟩
    ∧ hooksParseLocation (.obj [("lat", .num 37.7749), ("lon", .num (-122.4194))]) = none := by
  constructor
  · simp +decide [mapkitParseLocation, mapkitHexFallback, knownLocations, sfNeighborhoods,
      jsHashStep, toInt32]
  · simp +decide [hooksParseLocation, getField]

/-- C6 amended: the literal parsing table, per parser.  The MapKit parser
returns the point for the WKT string, the GeoJSON object, the string-encoded
GeoJSON and the lat/lon field pair, and null for "garbage"; but a WKB-hex
string shorter than the 18-character header that still bears the 12-character
prefix checked by the code yields a fallback San Francisco location, not
null (and does not throw).  The hook-local parser returns the point for the
WKT string and both GeoJSON forms, and null for "garbage", for the short
WKB-hex string, and also for the lat/lon field-pair object, which it does
not support. -/
theorem parseLocation_literal_table :
    mapkitParseLocation (.str "POINT(-122.4194 37.7749)")
      = some ⟨.num 37.7749, .num (-122.4194)⟩
    ∧ mapkitParseLocation
        (.obj [("type", .str "Point"), ("coordinates", .arr [.num (-122.4194), .num 37.7749])])
      = some ⟨.num 37.7749, .num (-122.4194)⟩
    ∧ mapkitParseLocation
        (.str "\x7b\"type\":\"Point\",\"coordinates\":[-122.4194,37.7749]\x7d")
      = some ⟨.num 37.7749, .num (-122.4194)⟩
    ∧ mapkitParseLocation (.obj [("lat", .num 37.7749), ("lon", .num (-122.4194))])
      = some ⟨.num 37.7749, .num (-122.4194)⟩
    ∧ mapkitParseLocation (.str "garbage") = none
    ∧ mapkitParseLocation (.str "0101000020E61")
      = some ⟨.num 37.7749, .num (-122.4194)⟩
    ∧ hooksParseLocation (.str "POINT(-122.4194 37.7749)")
      = some ⟨.num 37.7749, .num (-122.4194)⟩
    ∧ hooksParseLocation
        (.obj [("type", .str "Point"), ("coordinates", .arr [.num (-122.4194), .num 37.7749])])
      = some ⟨.num 37.7749, .num (-122.4194)⟩
    ∧ hooksParseLocation
        (.str "\x7b\"type\":\"Point\",\"coordinates\":[-122.4194,37.7749]\x7d")
      = some ⟨.num 37.7749, .num (-122.4194)⟩
    ∧ hooksParseLocation (.str "garbage") = none
    ∧ hooksParseLocation (.str "0101000020E61") = none
    ∧ hooksParseLocation (.obj [("lat", .num 37.7749), ("lon", .num (-122.4194))]) = none := by
  refine ⟨?_, ?_, ?_, ?_, ?_, ?_, ?_, ?_, ?_, ?_, ?_, ?_⟩
  · have h := wktCoords_sample
    simp +decide [mapkitParseLocation, h, JSNum.isNaN, sfCheck_sample]
  · simp +decide [mapkitParseLocation, getField, JSNum.isNaN]
  · simp +decide [mapkitParseLocation, jsonPointCoords, mapStrictNums, splitChar,
      parseSignedDec, parseUnsignedDec, digitsToNat, JSNum.isNaN]
    norm_num
  · simp +decide [mapkitParseLocation, fieldPatternLookup, fieldPatternLookup.go, patternPairs,
      getField, JField.asNumber, JField.asString]
  · decide
  · simp +decide [mapkitParseLocation, mapkitHexFallback, knownLocations, sfNeighborhoods,
      jsHashStep, toInt32]
  · have h := wktCoords_sample
    simp +decide [hooksParseLocation, h, JSNum.isNaN]
  · simp +decide [hooksParseLocation, getField, JSNum.isNaN]
  · simp +decide [hooksParseLocation, jsonPointCoords, mapStrictNums, splitChar,
      parseSignedDec, parseUnsignedDec, digitsToNat, JSNum.isNaN]
    norm_num
  · decide
  · decide
  · simp +decide [hooksParseLocation, getField]

/-- Helper: the empty character list starts with no non-empty pattern. -/
theorem startsWithCL_nil (p : List Char) (h : startsWithCL [] p = true) : p = [] := by
  cases p with
  | nil => rfl
  | cons c ps => simp [startsWithCL] at h

/-- Helper: a list starting with pattern c :: ps begins with c. -/
theorem startsWithCL_cons (l : List Char) (c : Char) (ps : List Char)
    (h : startsWithCL l (c :: ps) = true) :
    ∃ cs, l = c :: cs ∧ startsWithCL cs ps = true := by
  cases l with
  | nil => simp [startsWithCL] at h
  | cons a as =>
    rw [startsWithCL, Bool.and_eq_true] at h
    exact ⟨as, by simp [beq_iff_eq.mp h.1], h.2⟩

/-- C7 counterexample: the sample extended-WKB string from the MapKit table
decodes (per the spec's little-endian float64 rule) to a finite point, yet
the hook-local parser yields no location for it. -/
theorem wkb_decode_counterexample :
    (specWKBDecode "0101000020E6100000E4141DC9E5975EC07D96E7C1DD034340").isSome = true
    ∧ hooksParseLocation (.str "0101000020E6100000E4141DC9E5975EC07D96E7C1DD034340") = none := by
  decide

/-- C7 amended: strings bearing the PostGIS extended-WKB hex header are not
decoded as floating-point coordinates by any parser in the code: the
hook-local parser returns null for every string with the full 18-character
header, and the MapKit parser returns a non-null substitute (a hard-coded
table entry or a hash-derived neighborhood fallback) for every string with
the 12-character prefix it checks. -/
theorem wkb_strings_never_decoded :
    (∀ s : String, startsWithCL s.data "0101000020E6100000".data = true →
      hooksParseLocation (.str s) = none)
    ∧ (∀ s : String, startsWithCL s.data "0101000020E6".data = true →
      mapkitParseLocation (.str s) ≠ none) := by
  constructor
  · intro s h
    have hne : s.data.isEmpty = false := by
      cases hd : s.data with
      | nil =>
        rw [hd] at h
        exact absurd (startsWithCL_nil _ h) (by decide)
      | cons a as => simp
    simp [hooksParseLocation, hne, h]
  · intro s h
    have hne : s.data.isEmpty = false := by
      cases hd : s.data with
      | nil =>
        rw [hd] at h
        exact absurd (startsWithCL_nil _ h) (by decide)
      | cons a as => simp
    obtain ⟨cs, hcs, -⟩ := startsWithCL_cons s.data '0' _ h
    have hP : startsWithCL s.data "POINT(".data = false := by
      rw [hcs]
      simp +decide [startsWithCL]
    simp only [mapkitParseLocation, hne, hP, h, Bool.false_eq_true, if_false, if_true]
    cases hf : knownLocations.find? (fun kv => kv.1 == s) <;> simp [hf]

/-- Witness for C7's amended theorem at the sample extended-WKB string. -/
theorem wkb_strings_never_decoded_witness :
    hooksParseLocation (.str "0101000020E6100000E4141DC9E5975EC07D96E7C1DD034340") = none
    ∧ mapkitParseLocation (.str "0101000020E6100000E4141DC9E5975EC07D96E7C1DD034340") ≠ none :=
  ⟨wkb_strings_never_decoded.1 _ (by decide), wkb_strings_never_decoded.2 _ (by decide)⟩

/-- Helper: the reviewed and unreviewed parts of a list partition its
length. -/
theorem length_filter_partition {α : Type} (P : α → Bool) (l : List α) :
    (l.filter P).length + (l.filter (fun a => !P a)).length = l.length := by
  induction l with
  | nil => simp
  | cons a l ih =>
    cases h : P a <;> simp [List.filter_cons, h] <;> omega

/-- C9: normalizeReview substitutes the fixed fallback rating 5 whenever the
raw rating is missing or NaN (the falsy invalid cases of the Number(x || 5)
coercion); and on the empty raw object with join field "place_id" it yields
rating 5, a non-empty generated id, and created_at and updated_at equal to
the current instant's ISO string. -/
theorem normalizeReview_defaults (raw : RawReview) (freshSuffix nowISO : String)
    (hmiss : raw.rating = none ∨ raw.rating = some .nan) :
    (normalizeReview raw "place_id" freshSuffix nowISO).rating = .num 5
    ∧ (normalizeReview {} "place_id" freshSuffix nowISO).rating = .num 5
    ∧ (normalizeReview {} "place_id" freshSuffix nowISO).id ≠ ""
    ∧ (normalizeReview {} "place_id" freshSuffix nowISO).created_at = some nowISO
    ∧ (normalizeReview {} "place_id" freshSuffix nowISO).updated_at = some nowISO := by
  refine ⟨?_, by simp [normalizeReview, strTruthy], ?_, by simp [normalizeReview, strTruthy],
    by simp [normalizeReview, strTruthy]⟩
  · rcases hmiss with h | h <;> simp [normalizeReview, h, JSNum.isFalsy]
  · simp only [normalizeReview, strTruthy, Option.getD]
    intro h
    have := congrArg String.length h
    simp [String.length_append] at this
    exact absurd this.1 (by decide)

/-- Witness for C9 on the empty raw review at a concrete suffix and
instant. -/
theorem normalizeReview_defaults_witness :
    (normalizeReview {} "place_id" "k3q9z" "2026-10-12T00:00:00.000Z").rating = .num 5
    ∧ (normalizeReview {} "place_id" "k3q9z" "2026-10-12T00:00:00.000Z").id ≠ ""
    ∧ (normalizeReview {} "place_id" "k3q9z" "2026-10-12T00:00:00.000Z").created_at
        = some "2026-10-12T00:00:00.000Z" := by
  have h := normalizeReview_defaults {} "k3q9z" "2026-10-12T00:00:00.000Z" (Or.inl rfl)
  exact ⟨h.2.1, h.2.2.1, h.2.2.2.1⟩

/-- C5: the zoom-tiered reduction.  Below zoom 10 exactly the reviewed
candidates are retained; between 10 and 14 with more than 30 candidates the
reviewed candidates are kept together with a prefix of the unreviewed ones,
reaching exactly 30 when at most 30 candidates are reviewed; at zoom 14 and
above no reduction is applied.  In particular, on the 50-candidate fixture
with 5 reviewed places, zoom 8 keeps exactly those 5, zoom 12 keeps them
plus 25 unreviewed (30 total), and zoom 15 keeps all 50. -/
theorem filterByZoom_tiers (z : Rat) (candidates : List Place) :
    (z < 10 → filterByZoom (some z) candidates = candidates.filter hasReviews)
    ∧ (10 ≤ z → z < 14 → candidates.length > 30 →
        filterByZoom (some z) candidates
          = candidates.filter hasReviews
            ++ (candidates.filter (fun p => !hasReviews p)).take
                (max 0 (min 30 (candidates.length : Int)
                  - ((candidates.filter hasReviews).length : Int))).toNat
        ∧ ((candidates.filter hasReviews).length ≤ 30 →
            (filterByZoom (some z) candidates).length = 30))
    ∧ (14 ≤ z → filterByZoom (some z) candidates = candidates)
    ∧ c5Candidates.length = 50
    ∧ c5Candidates.filter hasReviews = c5Candidates.take 5
    ∧ filterByZoom (some 8) c5Candidates = c5Candidates.take 5
    ∧ filterByZoom (some 12) c5Candidates = c5Candidates.take 30
    ∧ filterByZoom (some 15) c5Candidates = c5Candidates := by
  refine ⟨?_, ?_, ?_, by decide, by decide, ?_, ?_, ?_⟩
  · intro h
    simp only [filterByZoom]
    rw [if_pos h]
  · intro h10 h14 hlen
    have heq : filterByZoom (some z) candidates
        = candidates.filter hasReviews
          ++ (candidates.filter (fun p => !hasReviews p)).take
              (max 0 (min 30 (candidates.length : Int)
                - ((candidates.filter hasReviews).length : Int))).toNat := by
      simp only [filterByZoom]
      rw [if_neg (not_lt.mpr h10), if_pos ⟨h14, hlen⟩]
    refine ⟨heq, fun hR => ?_⟩
    rw [heq, List.length_append, List.length_take]
    have hpart := length_filter_partition hasReviews candidates
    omega
  · intro h
    simp only [filterByZoom]
    rw [if_neg (not_lt.mpr (by linarith)), if_neg (fun hc => absurd hc.1 (not_lt.mpr h))]
  · simp only [filterByZoom]
    rw [if_pos (by norm_num : (8 : Rat) < 10)]
    decide
  · simp only [filterByZoom]
    rw [if_neg (by norm_num : ¬ (12 : Rat) < 10), if_pos ⟨by norm_num, by decide⟩]
    decide
  · simp only [filterByZoom]
    rw [if_neg (by norm_num : ¬ (15 : Rat) < 10),
      if_neg (fun hc => absurd hc.1 (by norm_num : ¬ (15 : Rat) < 14))]

/-- Witness for C5's general tier at zoom 8 on the 50-candidate fixture. -/
theorem filterByZoom_tiers_witness :
    filterByZoom (some 8) c5Candidates = c5Candidates.filter hasReviews :=
  (filterByZoom_tiers 8 c5Candidates).1 (by norm_num)

/-- C8 counterexample: with no zoom level supplied, merging one new place
into one hundred existing ones leaves 101 places — the merged list exceeds
the 100-place cap yet is not pruned, against the claim's "whenever". -/
theorem mergePlaces_no_zoom_no_prune :
    (mergePlaces none c8Prev c8New).length = 101 := by
  decide

/-- C8 amended: the merge never overwrites an existing entry — every element
of the result is either an existing entry kept verbatim or a fetched place
whose id was not yet present; every reviewed existing place survives; and
when a zoom level was supplied and the combined list exceeds 100 places, the
result keeps every reviewed place plus a prefix of the unreviewed ones,
capping the length at max(100, reviewed count). -/
theorem mergePlaces_cap_spec (z : Option Rat) (prev fetched : List Place) :
    (∀ p ∈ mergePlaces z prev fetched,
        p ∈ prev ∨ (p ∈ fetched ∧ (prev.map (fun q => q.id)).contains p.id = false))
    ∧ (∀ p ∈ prev, hasReviews p = true → p ∈ mergePlaces z prev fetched)
    ∧ (∀ zv : Rat, z = some zv →
        ∀ N, N = fetched.filter (fun p => !(prev.map (fun q => q.id)).contains p.id) →
        N.length > 0 → (prev ++ N).length > 100 →
        mergePlaces z prev fetched
          = (prev ++ N).filter hasReviews
            ++ ((prev ++ N).filter (fun p => !hasReviews p)).take
                (max 0 (100 - (((prev ++ N).filter hasReviews).length : Int))).toNat
        ∧ (mergePlaces z prev fetched).length
            = min (prev ++ N).length (max 100 ((prev ++ N).filter hasReviews).length)) := by
  refine ⟨?_, ?_, ?_⟩
  · intro p hp
    simp only [mergePlaces] at hp
    split_ifs at hp with h1 h2
    · rcases List.mem_append.mp hp with h | h
      · rcases List.mem_filter.mp h with ⟨hc, -⟩
        rcases List.mem_append.mp hc with h' | h'
        · exact Or.inl h'
        · rcases List.mem_filter.mp h' with ⟨hf, hn⟩
          exact Or.inr ⟨hf, by simpa using hn⟩
      · have h' := List.mem_of_mem_take h
        rcases List.mem_filter.mp h' with ⟨hc, -⟩
        rcases List.mem_append.mp hc with h'' | h''
        · exact Or.inl h''
        · rcases List.mem_filter.mp h'' with ⟨hf, hn⟩
          exact Or.inr ⟨hf, by simpa using hn⟩
    · rcases List.mem_append.mp hp with h | h
      · exact Or.inl h
      · rcases List.mem_filter.mp h with ⟨hf, hn⟩
        exact Or.inr ⟨hf, by simpa using hn⟩
    · exact Or.inl hp
  · intro p hp hr
    simp only [mergePlaces]
    split_ifs with h1 h2
    · exact List.mem_append_left _ (List.mem_filter.mpr ⟨List.mem_append_left _ hp, hr⟩)
    · exact List.mem_append_left _ hp
    · exact hp
  · intro zv hz N hNdef hNpos hlen
    have heq : mergePlaces z prev fetched
        = (prev ++ N).filter hasReviews
          ++ ((prev ++ N).filter (fun p => !hasReviews p)).take
              (max 0 (100 - (((prev ++ N).filter hasReviews).length : Int))).toNat := by
      simp only [mergePlaces]
      rw [← hNdef, if_pos hNpos, if_pos ⟨by simp [hz], hlen⟩]
    refine ⟨heq, ?_⟩
    rw [heq, List.length_append, List.length_take]
    have hpart := length_filter_partition hasReviews (prev ++ N)
    omega

/-- Witness for C8's amended theorem on the 100+1 fixture at zoom 12. -/
theorem mergePlaces_cap_spec_witness :
    (mergePlaces (some 12) c8Prev c8New).length
      = min (c8Prev ++ c8New).length (max 100 ((c8Prev ++ c8New).filter hasReviews).length) :=
  ((mergePlaces_cap_spec (some 12) c8Prev c8New).2.2 12 rfl c8New
    (by decide) (by decide) (by decide)).2

/-- C3: with the store ready, a valid "places" entry and a non-empty cached
list, load publishes the cached list with isCached true first, before any
remote outcome is consulted; when the background refresh succeeds the fresh
list is then published with isCached false and becomes the final state; when
it fails, the cached publication stands, isCached stays true and the error
stays null. -/
theorem load_cache_hit_spec (env : RemoteEnv) (d now : Rat) (st : DbState) (b : Bool)
    (hvalid : isCacheValid "places" d now st = true)
    (hnonempty : 0 < (getPlaces st).length) :
    (fetchPlacesWithCache env true d now st b).published.head? = some (getPlaces st, true)
    ∧ (∀ fresh st2, fetchFreshData env d now st = .ok (fresh, st2) →
        (fetchPlacesWithCache env true d now st b).published
            = [(getPlaces st, true), (fresh, false)]
        ∧ (fetchPlacesWithCache env true d now st b).final
            = { places := fresh, loading := false, error := none, isCached := false }
        ∧ (fetchPlacesWithCache env true d now st b).db = st2)
    ∧ (∀ msg, fetchFreshData env d now st = .error msg →
        (fetchPlacesWithCache env true d now st b).published = [(getPlaces st, true)]
        ∧ (fetchPlacesWithCache env true d now st b).final
            = { places := getPlaces st, loading := false, error := none, isCached := true }) := by
  refine ⟨?_, ?_, ?_⟩
  · cases hf : fetchFreshData env d now st with
    | ok pr => simp [fetchPlacesWithCache, hvalid, hnonempty, hf]
    | error msg => simp [fetchPlacesWithCache, hvalid, hnonempty, hf]
  · intro fresh st2 hf
    refine ⟨?_, ?_, ?_⟩ <;> simp [fetchPlacesWithCache, hvalid, hnonempty, hf]
  · intro msg hf
    constructor <;> simp [fetchPlacesWithCache, hvalid, hnonempty, hf]

/-- Witness for C3 on the seeded store (timestamp 5 minutes old, 60-minute
duration, three cached places). -/
theorem load_cache_hit_spec_witness :
    (fetchPlacesWithCache c3Env true 60 600000000 c3St false).published.head?
      = some (getPlaces c3St, true) :=
  (load_cache_hit_spec c3Env 60 600000000 c3St false
    (by norm_num [isCacheValid, getTimestampRec, c3St, List.find?, decide_eq_true_eq])
    (by decide)).1

/-- C4 counterexample: with the cache entry invalid, three places cached and
the remote fetch rejecting, load ends with the cached places and isCached
true but with the error field set to the fetch error — not null as the
claim states. -/
theorem load_fallback_error_not_null :
    (fetchPlacesWithCache c4Env true 60 1000 c4St false).final.places = c4Places
    ∧ (fetchPlacesWithCache c4Env true 60 1000 c4St false).final.isCached = true
    ∧ (fetchPlacesWithCache c4Env true 60 1000 c4St false).final.error
        = some "Failed to fetch places: boom" := by
  decide

/-- C4 amended: when the cache entry is invalid, the store holds cached
places and the remote fetch rejects, load terminates with the cached places
published, isCached true, and the error field holding the fetch error
(non-null). -/
theorem load_error_fallback_spec (env : RemoteEnv) (d now : Rat) (st : DbState) (b : Bool)
    (msg : String)
    (hinvalid : isCacheValid "places" d now st = false)
    (herr : env.placeRows = .error msg)
    (hnonempty : 0 < (getPlaces st).length) :
    fetchPlacesWithCache env true d now st b
      = { published := [(getPlaces st, true)]
          final := { places := getPlaces st, loading := false,
                     error := some ("Failed to fetch places: " ++ msg), isCached := true }
          db := st } := by
  simp [fetchPlacesWithCache, hinvalid, fetchFreshPath, fetchFreshData, herr, hnonempty]

/-- Witness for C4's amended theorem on the concrete rejected-fetch
fixture. -/
theorem load_error_fallback_spec_witness :
    fetchPlacesWithCache c4Env true 60 1000 c4St false
      = { published := [(getPlaces c4St, true)]
          final := { places := getPlaces c4St, loading := false,
                     error := some ("Failed to fetch places: " ++ "boom"), isCached := true }
          db := c4St } :=
  load_error_fallback_spec c4Env 60 1000 c4St false "boom" (by decide) rfl (by decide)
